import Mathlib

/-!
Verification development for the unified streaming-completion adapter
(`sendLLMMessage.impl.ts`): a shallow embedding of the provider stream
decoders, finalization / error classification, FIM gates, the provider
dispatch table, and the code-block saving routine, together with theorems
settling the specification claims.
-/

/-- JavaScript/JSON value model.  JSON numbers are restricted to integers in
this model (no claim depends on fractional values). -/
inductive JsonVal where
  | null : JsonVal
  | bool (b : Bool) : JsonVal
  | num (n : Int) : JsonVal
  | str (s : String) : JsonVal
  | arr (elems : List JsonVal) : JsonVal
  | obj (members : List (String × JsonVal)) : JsonVal

/-- JavaScript `Object.keys` on a parsed JSON value: own enumerable keys of an
object are its member names in order; of an array, its index strings; every
other value has none (`Object.keys` is never reached on primitives in the
embedded code). -/
def jsObjectKeys : JsonVal → List String
  | JsonVal.obj members => members.map Prod.fst
  | JsonVal.arr elems => (List.range elems.length).map (fun i => toString i)
  | _ => []

/-- JavaScript `typeof v === 'object'`: true for objects, arrays and `null`. -/
def jsTypeofIsObject : JsonVal → Bool
  | JsonVal.obj _ => true
  | JsonVal.arr _ => true
  | JsonVal.null => true
  | _ => false

-- ------------------------------------------------------------------
-- Modelled from the spec: Node's `JSON.parse`.  The adapter calls the
-- external `JSON.parse` on accumulated tool-argument strings; the function
-- itself is library code, so it is modelled here as a standard recursive
-- descent JSON reader (whitespace, null, booleans, integer numbers, strings
-- with the common escapes, arrays, objects), returning `none` where
-- `JSON.parse` would throw.
-- ------------------------------------------------------------------

/-- Skip JSON whitespace. -/
def skipWs : List Char → List Char
  | [] => []
  | c :: cs => if c = ' ' ∨ c = '\t' ∨ c = '\n' ∨ c = '\r' then skipWs cs else c :: cs

/-- Decode a JSON string-literal escape character. -/
def jsonEscChar : Char → Option Char
  | 'n' => some '\n'
  | 't' => some '\t'
  | 'r' => some '\r'
  | '"' => some '"'
  | '/' => some '/'
  | '\\' => some '\\'
  | _ => none

/-- Read the body of a JSON string literal (the opening quote already
consumed), returning the characters and the remaining input. -/
def parseStringChars : List Char → Option (List Char × List Char)
  | [] => none
  | '"' :: rest => some ([], rest)
  | '\\' :: e :: rest =>
    match jsonEscChar e with
    | some c =>
      match parseStringChars rest with
      | some (s, r) => some (c :: s, r)
      | none => none
    | none => none
  | c :: rest =>
    if c = '\\' then none
    else
      match parseStringChars rest with
      | some (s, r) => some (c :: s, r)
      | none => none

/-- Consume an expected literal character sequence. -/
def expectChars (pat : List Char) (cs : List Char) : Option (List Char) :=
  if pat.isPrefixOf cs then some (cs.drop pat.length) else none

/-- Read a nonempty digit run as a natural number. -/
def parseDigits (cs : List Char) : Option (Nat × List Char) :=
  let sp := cs.span Char.isDigit
  if sp.1.isEmpty then none
  else some (sp.1.foldl (fun n c => 10 * n + (c.toNat - 48)) 0, sp.2)

mutual

/-- Fuel-based JSON value reader. -/
def parseVal : Nat → List Char → Option (JsonVal × List Char)
  | 0, _ => none
  | fuel + 1, cs0 =>
    match skipWs cs0 with
    | [] => none
    | c :: rest =>
      if c = 'n' then
        match expectChars ['u', 'l', 'l'] rest with
        | some r => some (JsonVal.null, r)
        | none => none
      else if c = 't' then
        match expectChars ['r', 'u', 'e'] rest with
        | some r => some (JsonVal.bool true, r)
        | none => none
      else if c = 'f' then
        match expectChars ['a', 'l', 's', 'e'] rest with
        | some r => some (JsonVal.bool false, r)
        | none => none
      else if c = '"' then
        match parseStringChars rest with
        | some (s, r) => some (JsonVal.str (String.mk s), r)
        | none => none
      else if c = '-' then
        match parseDigits rest with
        | some (n, r) => some (JsonVal.num (-(n : Int)), r)
        | none => none
      else if c.isDigit then
        match parseDigits (c :: rest) with
        | some (n, r) => some (JsonVal.num (n : Int), r)
        | none => none
      else if c = '[' then
        match skipWs rest with
        | ']' :: r => some (JsonVal.arr [], r)
        | rest2 =>
          match parseArrItems fuel rest2 with
          | some (vs, r) => some (JsonVal.arr vs, r)
          | none => none
      else if c = '{' then
        match skipWs rest with
        | '}' :: r => some (JsonVal.obj [], r)
        | rest2 =>
          match parseObjMembers fuel rest2 with
          | some (kvs, r) => some (JsonVal.obj kvs, r)
          | none => none
      else none

/-- Fuel-based reader for the items of a JSON array (after `[`, nonempty). -/
def parseArrItems : Nat → List Char → Option (List JsonVal × List Char)
  | 0, _ => none
  | fuel + 1, cs =>
    match parseVal fuel cs with
    | none => none
    | some (v, rest) =>
      match skipWs rest with
      | ',' :: r =>
        match parseArrItems fuel r with
        | some (vs, r2) => some (v :: vs, r2)
        | none => none
      | ']' :: r => some ([v], r)
      | _ => none

/-- Fuel-based reader for the members of a JSON object (after `{`, nonempty). -/
def parseObjMembers : Nat → List Char → Option (List (String × JsonVal) × List Char)
  | 0, _ => none
  | fuel + 1, cs =>
    match skipWs cs with
    | '"' :: kcs =>
      match parseStringChars kcs with
      | none => none
      | some (k, rest) =>
        match skipWs rest with
        | ':' :: r =>
          match parseVal fuel r with
          | none => none
          | some (v, rest2) =>
            match skipWs rest2 with
            | ',' :: r2 =>
              match parseObjMembers fuel r2 with
              | some (kvs, r3) => some ((String.mk k, v) :: kvs, r3)
              | none => none
            | '}' :: r2 => some ([(String.mk k, v)], r2)
            | _ => none
        | _ => none
    | _ => none

end

/-- Top-level JSON parse of a string, `none` where `JSON.parse` throws. -/
def parseJson (s : String) : Option JsonVal :=
  match parseVal (2 * s.length + 8) s.data with
  | some (v, rest) => if (skipWs rest).isEmpty then some v else none
  | none => none

/-- Escape one character for a JSON string literal. -/
def jsonEscapeChar (c : Char) : String :=
  if c = '"' then "\\\""
  else if c = '\\' then "\\\\"
  else if c = '\n' then "\\n"
  else if c = '\t' then "\\t"
  else if c = '\r' then "\\r"
  else String.singleton c

/-- Escape a string for a JSON string literal. -/
def jsonEscape (s : String) : String :=
  String.join (s.data.map jsonEscapeChar)

mutual

/-- Modelled from the spec: Node's `JSON.stringify` on the values of this
model (called by the Gemini decoder on a complete function-call argument
object). -/
def stringifyJson : JsonVal → String
  | JsonVal.null => "null"
  | JsonVal.bool true => "true"
  | JsonVal.bool false => "false"
  | JsonVal.num n => toString n
  | JsonVal.str s => "\"" ++ jsonEscape s ++ "\""
  | JsonVal.arr xs => "[" ++ stringifyArr xs ++ "]"
  | JsonVal.obj kvs => "\x7b" ++ stringifyObj kvs ++ "\x7d"

/-- Comma-joined serialization of array elements. -/
def stringifyArr : List JsonVal → String
  | [] => ""
  | [x] => stringifyJson x
  | x :: y :: xs => stringifyJson x ++ "," ++ stringifyArr (y :: xs)

/-- Comma-joined serialization of object members. -/
def stringifyObj : List (String × JsonVal) → String
  | [] => ""
  | [(k, v)] => "\"" ++ jsonEscape k ++ "\":" ++ stringifyJson v
  | (k, v) :: m :: kvs =>
    "\"" ++ jsonEscape k ++ "\":" ++ stringifyJson v ++ "," ++ stringifyObj (m :: kvs)

end

-- ------------------------------------------------------------------
-- Canonical data model (sendLLMMessageTypes): incremental deltas,
-- tool-call results, final messages, and the per-request trace.
-- ------------------------------------------------------------------

/-- An Anthropic content block as delivered in the terminal `finalMessage`
payload (`response.content`). -/
inductive AnthropicContentBlock where
  | text (t : String) : AnthropicContentBlock
  | thinking (t : String) : AnthropicContentBlock
  | redactedThinking : AnthropicContentBlock
  | toolUse (id name : String) (input : JsonVal) : AnthropicContentBlock

/-- `RawToolCallObj`: id, name, raw params (the parsed JS value), the list of
param keys already complete, and the done flag. -/
structure RawToolCallObj where
  id : String
  name : String
  rawParams : JsonVal
  doneParams : List String
  isDone : Bool

/-- One incremental `onText` emission: cumulative text, cumulative reasoning,
and the optional in-progress tool call (`undefined` modelled as `none`). -/
structure OnTextEvent where
  fullText : String
  fullReasoning : String
  toolCall : Option RawToolCallObj

/-- The terminal `onFinalMessage` payload.  `anthropicReasoning = none`
models the JS `null` used by every non-Anthropic provider; a missing
`toolCall` field is modelled as `none`. -/
structure FinalMessage where
  fullText : String
  fullReasoning : String
  anthropicReasoning : Option (List AnthropicContentBlock)
  toolCall : Option RawToolCallObj

/-- The single terminal callback of a request: exactly one of
`onFinalMessage` or `onError`. -/
inductive Terminal where
  | final (m : FinalMessage) : Terminal
  | error (message : String) : Terminal

/-- The observable behaviour of one request: the ordered `onText` emissions
followed by the terminal callback. -/
structure Trace where
  events : List OnTextEvent
  terminal : Terminal

/-- `rawToolCallObjOfParamsStr`: JSON-parse the accumulated tool-argument
string; `null` and non-objects (by JS `typeof`) yield no tool call, anything
`typeof === 'object'` yields a done tool call with `Object.keys` as
`doneParams`. -/
def rawToolCallObjOfParamsStr (name toolParamsStr id : String) : Option RawToolCallObj :=
  match parseJson toolParamsStr with
  | none => none
  | some JsonVal.null => none
  | some input =>
    if jsTypeofIsObject input then
      some { id := id, name := name, rawParams := input,
             doneParams := jsObjectKeys input, isDone := true }
    else none

/-- `rawToolCallObjOfAnthropicParams`: same null / `typeof` guards applied to
the already-parsed `input` of a terminal `tool_use` block. -/
def rawToolCallObjOfAnthropicParams (id name : String) (input : JsonVal) : Option RawToolCallObj :=
  match input with
  | JsonVal.null => none
  | _ =>
    if jsTypeofIsObject input then
      some { id := id, name := name, rawParams := input,
             doneParams := jsObjectKeys input, isDone := true }
    else none

/-- `invalidApiKeyMessage`: the invalid-credential message built from the
provider's display title (`displayInfoOfProviderName(providerName).title`,
an external table; the title is a parameter here). -/
def invalidApiKeyMessage (title : String) : String :=
  "Invalid " ++ title ++ " API key."

/-- JavaScript `String.prototype.includes`: substring containment. -/
def strContainsSub (s pat : String) : Bool :=
  (List.range (s.length + 1)).any (fun i => pat.data.isPrefixOf (s.data.drop i))

-- ------------------------------------------------------------------
-- OpenAI-wire family stream decoder (`_sendOpenAICompatibleChat`).
-- ------------------------------------------------------------------

/-- One entry of `chunk.choices[0]?.delta?.tool_calls`. -/
structure OpenAIToolCallDelta where
  index : Nat
  name : Option String
  arguments : Option String
  id : Option String

/-- One inbound OpenAI-wire stream chunk: the text delta
(`choices[0]?.delta?.content`), the positional tool-call deltas
(`?? []`), and the optional named reasoning field of the delta. -/
structure OpenAIChunk where
  content : Option String
  tool_calls : List OpenAIToolCallDelta
  reasoningField : Option String

/-- The mutable accumulators of `_sendOpenAICompatibleChat`. -/
structure OpenAIChatState where
  fullTextSoFar : String
  fullReasoningSoFar : String
  toolName : String
  toolId : String
  toolParamsStr : String

/-- Initial accumulator state (all strings empty). -/
def openAIChatState0 : OpenAIChatState :=
  { fullTextSoFar := "", fullReasoningSoFar := "", toolName := "", toolId := "", toolParamsStr := "" }

/-- Processing of one tool-call delta: entries with `index !== 0` are
skipped (`continue`); index-0 entries append name, argument and id
fragments. -/
def openAIToolDeltaStep (st : OpenAIChatState) (tool : OpenAIToolCallDelta) : OpenAIChatState :=
  if tool.index ≠ 0 then st
  else { st with
    toolName := st.toolName ++ tool.name.getD "",
    toolParamsStr := st.toolParamsStr ++ tool.arguments.getD "",
    toolId := st.toolId ++ tool.id.getD "" }

/-- Processing of one inbound chunk: append the text delta, fold the
tool-call deltas, and, when the provider exposes a named reasoning field in
the delta (`nameOfReasoningFieldInDelta`), append the reasoning delta. -/
def openAIChunkStep (hasReasoningField : Bool) (st : OpenAIChatState) (chunk : OpenAIChunk) : OpenAIChatState :=
  let st1 := { st with fullTextSoFar := st.fullTextSoFar ++ chunk.content.getD "" }
  let st2 := chunk.tool_calls.foldl openAIToolDeltaStep st1
  if hasReasoningField then
    { st2 with fullReasoningSoFar := st2.fullReasoningSoFar ++ chunk.reasoningField.getD "" }
  else st2

/-- The `onText` payload emitted after each chunk: cumulative snapshots, and
`toolCall` is `undefined` exactly while no tool-name text has accumulated. -/
def openAIEmit (st : OpenAIChatState) : OnTextEvent :=
  { fullText := st.fullTextSoFar,
    fullReasoning := st.fullReasoningSoFar,
    toolCall :=
      if st.toolName = "" then none
      else some { id := st.toolId, name := st.toolName, rawParams := JsonVal.obj [],
                  doneParams := [], isDone := false } }

/-- The `onText` emissions of the chunk loop from a given state: one per
inbound chunk. -/
def openAIChatEvents (hasReasoningField : Bool) (st : OpenAIChatState) : List OpenAIChunk → List OnTextEvent
  | [] => []
  | c :: cs =>
    let st' := openAIChunkStep hasReasoningField st c
    openAIEmit st' :: openAIChatEvents hasReasoningField st' cs

/-- The accumulator state after the chunk loop. -/
def openAIChatRunState (hasReasoningField : Bool) (st : OpenAIChatState) (chunks : List OpenAIChunk) : OpenAIChatState :=
  chunks.foldl (openAIChunkStep hasReasoningField) st

/-- Finalization of `_sendOpenAICompatibleChat` on natural stream end: the
all-empty accumulators classify as the empty-response error, otherwise the
final message is assembled with the optional parsed tool call. -/
def openAIChatFinalize (st : OpenAIChatState) : Terminal :=
  if st.fullTextSoFar = "" ∧ st.fullReasoningSoFar = "" ∧ st.toolName = "" then
    Terminal.error "Void: Response from model was empty."
  else
    Terminal.final
      { fullText := st.fullTextSoFar, fullReasoning := st.fullReasoningSoFar,
        anthropicReasoning := none,
        toolCall := rawToolCallObjOfParamsStr st.toolName st.toolParamsStr st.toolId }

/-- The full trace of a naturally completed OpenAI-wire chat request. -/
def openAIChatTrace (hasReasoningField : Bool) (chunks : List OpenAIChunk) : Trace :=
  { events := openAIChatEvents hasReasoningField openAIChatState0 chunks,
    terminal := openAIChatFinalize (openAIChatRunState hasReasoningField openAIChatState0 chunks) }

/-- A thrown SDK error as seen by the `.catch` handlers: whether it is an
`APIError` instance, its HTTP status, and its string coercion. -/
structure SdkApiError where
  isApiError : Bool
  status : Option Nat
  asString : String

/-- The `.catch` handler of `_sendOpenAICompatibleChat` (and of
`_sendOpenAICompatibleFIM`): a 401 `APIError` is classified as an invalid
API key for the provider's display title; everything else is reported
verbatim. -/
def openAICompatibleCatch (title : String) (e : SdkApiError) : Terminal :=
  if e.isApiError = true ∧ e.status = some 401 then Terminal.error (invalidApiKeyMessage title)
  else Terminal.error e.asString

-- ------------------------------------------------------------------
-- Anthropic family stream decoder (`sendAnthropicChat`).
-- ------------------------------------------------------------------

/-- The stream events handled by `sendAnthropicChat`'s `streamEvent`
listener: block starts (text / thinking / redacted-thinking / tool-use) and
block deltas (text / thinking / input-json).  A tool-use start carries the
tool name (`?? ''`); an input-json delta carries the partial argument
fragment (`?? ''`). -/
inductive AnthropicStreamEvent where
  | contentBlockStartText (text : String) : AnthropicStreamEvent
  | contentBlockStartThinking (thinking : String) : AnthropicStreamEvent
  | contentBlockStartRedactedThinking : AnthropicStreamEvent
  | contentBlockStartToolUse (name : Option String) : AnthropicStreamEvent
  | contentBlockDeltaText (text : String) : AnthropicStreamEvent
  | contentBlockDeltaThinking (thinking : String) : AnthropicStreamEvent
  | contentBlockDeltaInputJson (partialJson : Option String) : AnthropicStreamEvent

/-- The mutable accumulators of `sendAnthropicChat`. -/
structure AnthropicChatState where
  fullText : String
  fullReasoning : String
  fullToolName : String
  fullToolParams : String

/-- Initial accumulator state. -/
def anthropicChatState0 : AnthropicChatState :=
  { fullText := "", fullReasoning := "", fullToolName := "", fullToolParams := "" }

/-- `runOnText`: the incremental emission, with the placeholder id `'dummy'`
on an in-progress tool call and `toolCall` absent while the accumulated tool
name is empty. -/
def anthropicRunOnText (st : AnthropicChatState) : OnTextEvent :=
  { fullText := st.fullText,
    fullReasoning := st.fullReasoning,
    toolCall :=
      if st.fullToolName = "" then none
      else some { id := "dummy", name := st.fullToolName, rawParams := JsonVal.obj [],
                  doneParams := [], isDone := false } }

/-- State update of one handled stream event.  A second text (or thinking)
block is joined to the accumulated string with a blank-line separator. -/
def anthropicEventStep (st : AnthropicChatState) : AnthropicStreamEvent → AnthropicChatState
  | AnthropicStreamEvent.contentBlockStartText t =>
    { st with fullText := (if st.fullText ≠ "" then st.fullText ++ "\n\n" else st.fullText) ++ t }
  | AnthropicStreamEvent.contentBlockStartThinking t =>
    { st with fullReasoning := (if st.fullReasoning ≠ "" then st.fullReasoning ++ "\n\n" else st.fullReasoning) ++ t }
  | AnthropicStreamEvent.contentBlockStartRedactedThinking =>
    { st with fullReasoning := (if st.fullReasoning ≠ "" then st.fullReasoning ++ "\n\n" else st.fullReasoning) ++ "[redacted_thinking]" }
  | AnthropicStreamEvent.contentBlockStartToolUse name =>
    { st with fullToolName := st.fullToolName ++ name.getD "" }
  | AnthropicStreamEvent.contentBlockDeltaText t =>
    { st with fullText := st.fullText ++ t }
  | AnthropicStreamEvent.contentBlockDeltaThinking t =>
    { st with fullReasoning := st.fullReasoning ++ t }
  | AnthropicStreamEvent.contentBlockDeltaInputJson p =>
    { st with fullToolParams := st.fullToolParams ++ p.getD "" }

/-- The `onText` emissions of the event listener: every handled event
updates the state and emits once. -/
def anthropicChatEvents (st : AnthropicChatState) : List AnthropicStreamEvent → List OnTextEvent
  | [] => []
  | e :: es =>
    let st' := anthropicEventStep st e
    anthropicRunOnText st' :: anthropicChatEvents st' es

/-- The accumulator state after all stream events. -/
def anthropicChatRunState (st : AnthropicChatState) (events : List AnthropicStreamEvent) : AnthropicChatState :=
  events.foldl anthropicEventStep st

/-- Whether a terminal content block is kept by the reasoning filter
(`c.type === 'thinking' || c.type === 'redacted_thinking'`). -/
def anthropicIsReasoningBlock : AnthropicContentBlock → Bool
  | AnthropicContentBlock.thinking _ => true
  | AnthropicContentBlock.redactedThinking => true
  | _ => false

/-- Whether a terminal content block is a `tool_use` block. -/
def anthropicIsToolUseBlock : AnthropicContentBlock → Bool
  | AnthropicContentBlock.toolUse _ _ _ => true
  | _ => false

/-- The `finalMessage` listener of `sendAnthropicChat`: the terminal
response's content blocks supply the structured reasoning list and the
authoritative first tool-use block; there is no empty-response check on
this path. -/
def anthropicFinalMessage (st : AnthropicChatState) (content : List AnthropicContentBlock) : Terminal :=
  let anthropicReasoning := content.filter anthropicIsReasoningBlock
  let tools := content.filter anthropicIsToolUseBlock
  let toolCall :=
    match tools with
    | [] => none
    | AnthropicContentBlock.toolUse id name input :: _ => rawToolCallObjOfAnthropicParams id name input
    | _ :: _ => none
  Terminal.final
    { fullText := st.fullText, fullReasoning := st.fullReasoning,
      anthropicReasoning := some anthropicReasoning, toolCall := toolCall }

/-- The full trace of a naturally completed Anthropic chat request: the
incremental emissions of the stream events followed by the `finalMessage`
terminal (which fires after the last stream event). -/
def anthropicChatTrace (events : List AnthropicStreamEvent) (content : List AnthropicContentBlock) : Trace :=
  { events := anthropicChatEvents anthropicChatState0 events,
    terminal := anthropicFinalMessage (anthropicChatRunState anthropicChatState0 events) content }

/-- The `error` listener of `sendAnthropicChat`: a 401 `Anthropic.APIError`
is classified as an invalid API key, everything else reported verbatim. -/
def sendAnthropicChatCatch (title : String) (e : SdkApiError) : Terminal :=
  if e.isApiError = true ∧ e.status = some 401 then Terminal.error (invalidApiKeyMessage title)
  else Terminal.error e.asString

-- ------------------------------------------------------------------
-- Gemini family stream decoder (`sendGeminiChat`).
-- ------------------------------------------------------------------

/-- A complete streamed Gemini function call (`chunk.functionCalls[0]`). -/
structure GeminiFunctionCall where
  name : Option String
  args : Option JsonVal
  id : Option String

/-- One inbound Gemini stream chunk: an optional text fragment and the
chunk's function calls (`undefined` modelled as `[]`). -/
structure GeminiChunk where
  text : Option String
  functionCalls : List GeminiFunctionCall

/-- The mutable accumulators of `sendGeminiChat`. -/
structure GeminiChatState where
  fullTextSoFar : String
  fullReasoningSoFar : String
  toolName : String
  toolParamsStr : String
  toolId : String

/-- Initial accumulator state. -/
def geminiChatState0 : GeminiChatState :=
  { fullTextSoFar := "", fullReasoningSoFar := "", toolName := "", toolParamsStr := "", toolId := "" }

/-- Processing of one Gemini chunk: append the text fragment; when the chunk
carries function calls, the first one replaces (not appends to) the tool
name, the stringified arguments, and the id. -/
def geminiChunkStep (st : GeminiChatState) (chunk : GeminiChunk) : GeminiChatState :=
  let st1 := { st with fullTextSoFar := st.fullTextSoFar ++ chunk.text.getD "" }
  match chunk.functionCalls with
  | [] => st1
  | fc :: _ =>
    { st1 with
      toolName := fc.name.getD "",
      toolParamsStr := stringifyJson (fc.args.getD (JsonVal.obj [])),
      toolId := fc.id.getD "" }

/-- The `onText` payload emitted after each Gemini chunk. -/
def geminiEmit (st : GeminiChatState) : OnTextEvent :=
  { fullText := st.fullTextSoFar,
    fullReasoning := st.fullReasoningSoFar,
    toolCall :=
      if st.toolName = "" then none
      else some { id := st.toolId, name := st.toolName, rawParams := JsonVal.obj [],
                  doneParams := [], isDone := false } }

/-- The `onText` emissions of the Gemini chunk loop: one per inbound chunk. -/
def geminiChatEvents (st : GeminiChatState) : List GeminiChunk → List OnTextEvent
  | [] => []
  | c :: cs =>
    let st' := geminiChunkStep st c
    geminiEmit st' :: geminiChatEvents st' cs

/-- The accumulator state after the Gemini chunk loop. -/
def geminiChatRunState (st : GeminiChatState) (chunks : List GeminiChunk) : GeminiChatState :=
  chunks.foldl geminiChunkStep st

/-- Finalization of `sendGeminiChat`: all-empty accumulators classify as the
empty-response error; otherwise an empty tool id is replaced by a fresh
`generateUuid()` value (the `uuid` parameter models that external generator)
before the tool call is parsed and the final message assembled. -/
def geminiChatFinalize (uuid : String) (st : GeminiChatState) : Terminal :=
  if st.fullTextSoFar = "" ∧ st.fullReasoningSoFar = "" ∧ st.toolName = "" then
    Terminal.error "Void: Response from model was empty."
  else
    let toolId := if st.toolId = "" then uuid else st.toolId
    Terminal.final
      { fullText := st.fullTextSoFar, fullReasoning := st.fullReasoningSoFar,
        anthropicReasoning := none,
        toolCall := rawToolCallObjOfParamsStr st.toolName st.toolParamsStr toolId }

/-- The full trace of a naturally completed Gemini chat request. -/
def geminiChatTrace (uuid : String) (chunks : List GeminiChunk) : Trace :=
  { events := geminiChatEvents geminiChatState0 chunks,
    terminal := geminiChatFinalize uuid (geminiChatRunState geminiChatState0 chunks) }

/-- A thrown Gemini SDK error as seen by `sendGeminiChat`'s `.catch`: its
optional `message` property and its string coercion. -/
structure GeminiSdkError where
  message : Option String
  asString : String

/-- The `.catch` handler of `sendGeminiChat`: classification is by message
substring — `'API key'` means invalid credential, `'429'` means rate limit —
never by HTTP status; anything else is reported verbatim. -/
def sendGeminiChatCatch (title : String) (e : GeminiSdkError) : Terminal :=
  match e.message with
  | some m =>
    if strContainsSub m "API key" then Terminal.error (invalidApiKeyMessage title)
    else if strContainsSub m "429" then Terminal.error ("Rate limit reached. " ++ e.asString)
    else Terminal.error e.asString
  | none => Terminal.error e.asString

-- ------------------------------------------------------------------
-- Division API chat (`sendDivisionAPIChat`): cancellation path.
-- ------------------------------------------------------------------

/-- The result shape of `callDivisionGenerate`. -/
structure DivisionGenerateResult where
  output : String
  error : Option String

/-- The internal catch of `callDivisionGenerate`: any exception thrown while
fetching — including the `AbortError` raised once the request's signal is
aborted — is caught and returned as an error result
(`e?.message || String(e)`), never rethrown to the outer handler. -/
def callDivisionGenerateCatch (errMessage errAsString : String) : DivisionGenerateResult :=
  { output := "", error := some (if errMessage = "" then errAsString else errMessage) }

/-- The relevant fields of the external `getModelCapabilities` result:
the resolved model name and the fill-in-middle capability flag. -/
structure ModelCapabilitiesResult where
  modelName : String
  supportsFIM : Bool

/-- Outcome of a `sendFIM` implementation before any network traffic:
an `onError` call made before issuing the request, a synchronously thrown
configuration error, or proceeding to the network call. -/
inductive FIMOutcome where
  | earlyError (message : String) : FIMOutcome
  | thrownError (message : String) : FIMOutcome
  | proceeds : FIMOutcome

/-- The capability gate of `_sendOpenAICompatibleFIM`: an unsupported model
reports an error before the SDK is even constructed, naming only the
resolved model when the requested name resolved to itself and both names
otherwise. -/
def _sendOpenAICompatibleFIM_gate (caps : ModelCapabilitiesResult) (requestedModelName : String) : FIMOutcome :=
  if caps.supportsFIM = false then
    if caps.modelName = requestedModelName then
      FIMOutcome.earlyError ("Model " ++ caps.modelName ++ " does not support FIM.")
    else
      FIMOutcome.earlyError ("Model " ++ requestedModelName ++ " (" ++ caps.modelName ++ ") does not support FIM.")
  else FIMOutcome.proceeds

/-- The capability gate of `sendMistralFIM` (same logic, duplicated in the
source). -/
def sendMistralFIM_gate (caps : ModelCapabilitiesResult) (requestedModelName : String) : FIMOutcome :=
  if caps.supportsFIM = false then
    if caps.modelName = requestedModelName then
      FIMOutcome.earlyError ("Model " ++ caps.modelName ++ " does not support FIM.")
    else
      FIMOutcome.earlyError ("Model " ++ requestedModelName ++ " (" ++ caps.modelName ++ ") does not support FIM.")
  else FIMOutcome.proceeds

/-- The pre-network phase of `sendOllamaFIM`: there is no capability check
at all; the only early exit is the synchronous throw of `newOllamaSDK` on an
empty endpoint, after which the generate request is issued directly. -/
def sendOllamaFIM_gate (defaultEndpoint endpoint : String) : FIMOutcome :=
  if endpoint = "" then
    FIMOutcome.thrownError
      ("Ollama Endpoint was empty (please enter " ++ defaultEndpoint ++ " in Void if you want the default url).")
  else FIMOutcome.proceeds

/-- The registered provider identifiers of the dispatch table. -/
inductive ProviderId where
  | divisionAPI | anthropic | openAI | xAI | gemini | mistral | ollama
  | openAICompatible | openRouter | vLLM | deepseek | groq | lmStudio
  | liteLLM | googleVertex | microsoftAzure | awsBedrock | perplexity
deriving DecidableEq

/-- Which concrete `sendFIM` implementation a dispatch-table entry refers
to. -/
inductive FIMImplementation where
  | openAICompatFIM | mistralFIM | ollamaFIM
deriving DecidableEq

/-- The `sendFIM` column of `sendLLMMessageToProviderImplementation`:
`none` models the literal `null` entries. -/
def sendFIMOf : ProviderId → Option FIMImplementation
  | ProviderId.divisionAPI => none
  | ProviderId.anthropic => none
  | ProviderId.openAI => none
  | ProviderId.xAI => none
  | ProviderId.gemini => none
  | ProviderId.mistral => some FIMImplementation.mistralFIM
  | ProviderId.ollama => some FIMImplementation.ollamaFIM
  | ProviderId.openAICompatible => some FIMImplementation.openAICompatFIM
  | ProviderId.openRouter => some FIMImplementation.openAICompatFIM
  | ProviderId.vLLM => some FIMImplementation.openAICompatFIM
  | ProviderId.deepseek => none
  | ProviderId.groq => none
  | ProviderId.lmStudio => some FIMImplementation.openAICompatFIM
  | ProviderId.liteLLM => some FIMImplementation.openAICompatFIM
  | ProviderId.googleVertex => none
  | ProviderId.microsoftAzure => none
  | ProviderId.awsBedrock => none
  | ProviderId.perplexity => none

/-- The pre-network outcome of invoking a dispatch-table `sendFIM`
implementation with the given resolved capabilities, requested model name,
and (for Ollama) endpoint configuration. -/
def fimGateOutcome (impl : FIMImplementation) (caps : ModelCapabilitiesResult)
    (requestedModelName : String) (defaultEndpoint endpoint : String) : FIMOutcome :=
  match impl with
  | FIMImplementation.openAICompatFIM => _sendOpenAICompatibleFIM_gate caps requestedModelName
  | FIMImplementation.mistralFIM => sendMistralFIM_gate caps requestedModelName
  | FIMImplementation.ollamaFIM => sendOllamaFIM_gate defaultEndpoint endpoint

-- ------------------------------------------------------------------
-- `saveCodeBlocksFromOutput`: workspace-rooted code-block writing.
-- ------------------------------------------------------------------

/-- JavaScript `String.prototype.startsWith`. -/
def jsStartsWith (s pat : String) : Bool :=
  pat.data.isPrefixOf s.data

/-- A JavaScript whitespace character as stripped by `trim` (the common
ASCII ones). -/
def isJsSpace (c : Char) : Bool :=
  c = ' ' ∨ c = '\t' ∨ c = '\n' ∨ c = '\r'

/-- JavaScript `String.prototype.trim`: strip leading and trailing
whitespace. -/
def jsTrim (s : String) : String :=
  String.mk (((s.data.dropWhile isJsSpace).reverse.dropWhile isJsSpace).reverse)

/-- Split a character list on `/` separators. -/
def splitSlashAux (cur : List Char) : List Char → List String
  | [] => [String.mk cur.reverse]
  | c :: cs =>
    if c = '/' then String.mk cur.reverse :: splitSlashAux [] cs
    else splitSlashAux (c :: cur) cs

/-- Split a string on `/` separators. -/
def splitSlash (s : String) : List String :=
  splitSlashAux [] s.data

/-- Modelled from the spec: Node's POSIX `path.isAbsolute`. -/
def posixIsAbsolute (p : String) : Bool :=
  jsStartsWith p "/"

/-- Segment normalization used by Node's POSIX `path.join`: empty and `.`
segments are dropped, `..` pops the previous real segment (and is discarded
at the root of an absolute path). -/
def normalizeSegsAux (isAbs : Bool) (acc : List String) : List String → List String
  | [] => acc
  | seg :: rest =>
    if seg = "" ∨ seg = "." then normalizeSegsAux isAbs acc rest
    else if seg = ".." then
      match acc.getLast? with
      | some l =>
        if l = ".." then normalizeSegsAux isAbs (acc ++ [".."]) rest
        else normalizeSegsAux isAbs acc.dropLast rest
      | none =>
        if isAbs then normalizeSegsAux isAbs acc rest
        else normalizeSegsAux isAbs [".."] rest
    else normalizeSegsAux isAbs (acc ++ [seg]) rest

/-- Modelled from the spec: Node's POSIX `path.join` of two segments,
joining with a separator and normalizing the result. -/
def pathJoin (a b : String) : String :=
  let joined := a ++ "/" ++ b
  let isAbs := posixIsAbsolute joined
  let body := String.intercalate "/" (normalizeSegsAux isAbs [] (splitSlash joined))
  if isAbs then (if body = "" then "/" else "/" ++ body)
  else (if body = "" then "." else body)

/-- One regex match of the code-block pattern
```` ```language:path  OR  ```language // path ````: the language word, the
annotated file path (`match[2] || match[3] || ''`, before `.trim()`), and
the block body. -/
structure CodeBlockMatch where
  language : String
  rawFilePath : String
  code : String

/-- Whether a saved file was newly created or updated over an existing
one. -/
inductive FileAction where
  | created | updated
deriving DecidableEq

/-- One entry of `saveCodeBlocksFromOutput`'s returned list. -/
structure SavedFileEntry where
  filePath : String
  language : String
  action : FileAction

/-- Per-block body of `saveCodeBlocksFromOutput`'s loop.  The file system is
abstracted by two oracles: `existsFn` models `fs.existsSync` and `writeOk`
models whether the `mkdirSync`/`writeFileSync` pair succeeds — a `false`
result models a thrown write error, which the source catches and ignores,
producing neither a write nor a returned entry.  The accumulator pairs the
returned `savedFiles` list with the list of paths actually written. -/
def saveCodeBlocksStep (workspaceRoot : String) (existsFn writeOk : String → Bool)
    (acc : List SavedFileEntry × List String) (b : CodeBlockMatch) :
    List SavedFileEntry × List String :=
  let rawFilePath := jsTrim b.rawFilePath
  if rawFilePath = "" ∨ b.code = "" then acc
  else
    let fullPath :=
      if posixIsAbsolute rawFilePath then rawFilePath
      else pathJoin workspaceRoot rawFilePath
    if ¬(jsStartsWith fullPath workspaceRoot) then acc
    else if writeOk fullPath then
      (acc.1 ++ [{ filePath := fullPath, language := b.language,
                   action := if existsFn fullPath then FileAction.updated else FileAction.created }],
       acc.2 ++ [fullPath])
    else acc

/-- `saveCodeBlocksFromOutput` over the extracted code-block matches:
returns the `savedFiles` list together with the paths actually written. -/
def saveCodeBlocksFromOutput (workspaceRoot : String) (existsFn writeOk : String → Bool)
    (blocks : List CodeBlockMatch) : List SavedFileEntry × List String :=
  blocks.foldl (saveCodeBlocksStep workspaceRoot existsFn writeOk) ([], [])


/-- Stated from the spec's words, as the refinement target for C4: the
cumulative concatenations of a fragment list, each entry being the
concatenation of all fragments seen so far (on top of an already accumulated
prefix). -/
def specCumulativeTexts (acc : String) : List String → List String
  | [] => []
  | f :: fs => (acc ++ f) :: specCumulativeTexts (acc ++ f) fs

-- ------------------------------------------------------------------
-- Helper lemmas.
-- ------------------------------------------------------------------

/-- A list is a Boolean prefix of itself followed by anything. -/
theorem isPrefixOf_append_self (l r : List Char) : l.isPrefixOf (l ++ r) = true := by
  induction l with
  | nil => simp [List.isPrefixOf]
  | cons a l ih => simp [List.isPrefixOf, ih]

/-- A string decomposed as `a ++ b ++ c` contains `b` as a substring. -/
theorem strContainsSub_of_decomp (s a b c : String) (h : s = a ++ b ++ c) :
    strContainsSub s b = true := by
  subst h
  unfold strContainsSub
  apply List.any_eq_true.mpr
  refine ⟨a.length, List.mem_range.mpr ?_, ?_⟩
  · have : (a ++ b ++ c).length = a.length + b.length + c.length := by
      simp [String.length_append]
    omega
  · have hdata : (a ++ b ++ c).data = a.data ++ (b.data ++ c.data) := by
      simp [String.data_append]
    have hlen : a.length = a.data.length := rfl
    rw [hdata, hlen, List.drop_left]
    exact isPrefixOf_append_self b.data c.data

/-- The invalid-credential message contains the provider's display title. -/
theorem invalidApiKeyMessage_contains_title (title : String) :
    strContainsSub (invalidApiKeyMessage title) title = true :=
  strContainsSub_of_decomp _ "Invalid " title " API key." rfl

/-- A successful `rawToolCallObjOfParamsStr` carries the id it was given. -/
theorem rawToolCallObjOfParamsStr_id (name s id : String) (tc : RawToolCallObj)
    (h : rawToolCallObjOfParamsStr name s id = some tc) : tc.id = id := by
  unfold rawToolCallObjOfParamsStr at h
  cases hp : parseJson s with
  | none => rw [hp] at h; exact Option.noConfusion h
  | some v =>
    rw [hp] at h
    cases v with
    | null => exact Option.noConfusion h
    | bool b => simp [jsTypeofIsObject] at h
    | num n => simp [jsTypeofIsObject] at h
    | str t => simp [jsTypeofIsObject] at h
    | arr xs =>
      simp only [jsTypeofIsObject, if_true, Option.some.injEq] at h
      rw [← h]
    | obj kvs =>
      simp only [jsTypeofIsObject, if_true, Option.some.injEq] at h
      rw [← h]

/-- C3 (amended): at finalization, an accumulated tool-argument string that
parses as a JSON object yields a done toolCall with `rawParams` the parsed
object and `doneParams` its own key set; an unparsable string, `null`, or a
primitive yields no toolCall field; a JSON array, however, passes the JS
`typeof`-object test and yields a toolCall whose `rawParams` is the array
and whose `doneParams` are its index strings.  The final conjunct ties this
to the assembled FinalMessage of `_sendOpenAICompatibleChat`. -/
theorem C3_toolCall_roundtrip (name s id : String) :
    (∀ kvs, parseJson s = some (JsonVal.obj kvs) →
      rawToolCallObjOfParamsStr name s id =
        some { id := id, name := name, rawParams := JsonVal.obj kvs,
               doneParams := kvs.map Prod.fst, isDone := true }) ∧
    (parseJson s = none → rawToolCallObjOfParamsStr name s id = none) ∧
    (parseJson s = some JsonVal.null → rawToolCallObjOfParamsStr name s id = none) ∧
    (∀ b, parseJson s = some (JsonVal.bool b) → rawToolCallObjOfParamsStr name s id = none) ∧
    (∀ n, parseJson s = some (JsonVal.num n) → rawToolCallObjOfParamsStr name s id = none) ∧
    (∀ t, parseJson s = some (JsonVal.str t) → rawToolCallObjOfParamsStr name s id = none) ∧
    (∀ xs, parseJson s = some (JsonVal.arr xs) →
      rawToolCallObjOfParamsStr name s id =
        some { id := id, name := name, rawParams := JsonVal.arr xs,
               doneParams := (List.range xs.length).map (fun i => toString i), isDone := true }) ∧
    (∀ st : OpenAIChatState,
      ¬(st.fullTextSoFar = "" ∧ st.fullReasoningSoFar = "" ∧ st.toolName = "") →
      openAIChatFinalize st = Terminal.final
        { fullText := st.fullTextSoFar, fullReasoning := st.fullReasoningSoFar,
          anthropicReasoning := none,
          toolCall := rawToolCallObjOfParamsStr st.toolName st.toolParamsStr st.toolId }) := by
  refine ⟨?_, ?_, ?_, ?_, ?_, ?_, ?_, ?_⟩
  · intro kvs h; simp [rawToolCallObjOfParamsStr, h, jsTypeofIsObject, jsObjectKeys]
  · intro h; simp [rawToolCallObjOfParamsStr, h]
  · intro h; simp [rawToolCallObjOfParamsStr, h]
  · intro b h; simp [rawToolCallObjOfParamsStr, h, jsTypeofIsObject]
  · intro n h; simp [rawToolCallObjOfParamsStr, h, jsTypeofIsObject]
  · intro t h; simp [rawToolCallObjOfParamsStr, h, jsTypeofIsObject]
  · intro xs h; simp [rawToolCallObjOfParamsStr, h, jsTypeofIsObject, jsObjectKeys]
  · intro st h
    unfold openAIChatFinalize
    rw [if_neg h]

/-- C3 witness: a concrete object-valued argument string round-trips into a
done toolCall via the theorem. -/
theorem C3_toolCall_roundtrip_witness :
    rawToolCallObjOfParamsStr "edit_file" "\x7b\"a\":1\x7d" "call1" =
      some { id := "call1", name := "edit_file", rawParams := JsonVal.obj [("a", JsonVal.num 1)],
             doneParams := ["a"], isDone := true } :=
  (C3_toolCall_roundtrip "edit_file" "\x7b\"a\":1\x7d" "call1").1 [("a", JsonVal.num 1)] rfl

/-- C3 counterexample: the string `[1]` parses to a JSON array — not an
object — yet `rawToolCallObjOfParamsStr` produces a toolCall for it,
refuting the claim that every non-object parse yields no toolCall at all. -/
theorem C3_counterexample :
    parseJson "[1]" = some (JsonVal.arr [JsonVal.num 1]) ∧
    rawToolCallObjOfParamsStr "tool" "[1]" "id1" =
      some { id := "id1", name := "tool", rawParams := JsonVal.arr [JsonVal.num 1],
             doneParams := ["0"], isDone := true } :=
  ⟨rfl, rfl⟩

/-- Folding tool-call deltas that all carry a nonzero index leaves the state
unchanged. -/
theorem foldl_toolDeltaStep_skip (l : List OpenAIToolCallDelta)
    (h : ∀ t ∈ l, t.index ≠ 0) (st : OpenAIChatState) : l.foldl openAIToolDeltaStep st = st := by
  induction l generalizing st with
  | nil => rfl
  | cons t ts ih =>
    have hstep : openAIToolDeltaStep st t = st := by
      unfold openAIToolDeltaStep
      rw [if_pos (h t (List.mem_cons_self t ts))]
    rw [List.foldl_cons, hstep]
    exact ih (fun t' ht' => h t' (List.mem_cons_of_mem t ht')) st

/-- C8: in the OpenAI-wire decoder, a chunk whose tool-call delta entries
all carry a nonzero index leaves the accumulated tool name, argument string
and id untouched, while an index-0 entry appends its name, argument and id
fragments. -/
theorem C8_index_zero_only (hasReasoningField : Bool) (st : OpenAIChatState) (chunk : OpenAIChunk)
    (h : ∀ t ∈ chunk.tool_calls, t.index ≠ 0) :
    ((openAIChunkStep hasReasoningField st chunk).toolName = st.toolName ∧
     (openAIChunkStep hasReasoningField st chunk).toolParamsStr = st.toolParamsStr ∧
     (openAIChunkStep hasReasoningField st chunk).toolId = st.toolId) ∧
    (∀ (st' : OpenAIChatState) (t : OpenAIToolCallDelta), t.index = 0 →
      openAIToolDeltaStep st' t =
        { st' with toolName := st'.toolName ++ t.name.getD "",
                   toolParamsStr := st'.toolParamsStr ++ t.arguments.getD "",
                   toolId := st'.toolId ++ t.id.getD "" }) := by
  constructor
  · cases hasReasoningField <;>
      simp [openAIChunkStep, foldl_toolDeltaStep_skip chunk.tool_calls h]
  · intro st' t ht
    unfold openAIToolDeltaStep
    rw [if_neg (by simp [ht])]

/-- C8 witness: a concrete index-1 delta is discarded by the decoder. -/
theorem C8_index_zero_only_witness :
    (openAIChunkStep false openAIChatState0
      { content := some "hi", tool_calls := [{ index := 1, name := some "X", arguments := some "Y", id := some "Z" }],
        reasoningField := none }).toolName = openAIChatState0.toolName :=
  (C8_index_zero_only false openAIChatState0
    { content := some "hi", tool_calls := [{ index := 1, name := some "X", arguments := some "Y", id := some "Z" }],
      reasoningField := none } (by decide)).1.1

/-- C9 (amended): the id synthesis of the Gemini decoder happens at
finalization — whenever the finalized Gemini chat carries a toolCall, its id
is non-empty provided the external uuid generator returns a non-empty
string: the provider-supplied id is kept when non-empty and the generated
uuid substituted otherwise.  (Incremental emissions are not covered: they
surface the still-empty id, see the counterexample.) -/
theorem C9_gemini_final_toolCall_id (uuid : String) (chunks : List GeminiChunk)
    (huuid : uuid ≠ "") :
    ∀ m tc, (geminiChatTrace uuid chunks).terminal = Terminal.final m →
      m.toolCall = some tc → tc.id ≠ "" := by
  intro m tc hterm htc
  have hterm' : geminiChatFinalize uuid (geminiChatRunState geminiChatState0 chunks) =
      Terminal.final m := hterm
  set st := geminiChatRunState geminiChatState0 chunks with hstdef
  unfold geminiChatFinalize at hterm'
  by_cases hempty : st.fullTextSoFar = "" ∧ st.fullReasoningSoFar = "" ∧ st.toolName = ""
  · rw [if_pos hempty] at hterm'
    exact Terminal.noConfusion hterm'
  · rw [if_neg hempty] at hterm'
    cases hterm'
    have hid := rawToolCallObjOfParamsStr_id st.toolName st.toolParamsStr
      (if st.toolId = "" then uuid else st.toolId) tc htc
    rw [hid]
    by_cases htid : st.toolId = ""
    · rw [if_pos htid]; exact huuid
    · rw [if_neg htid]; exact htid

/-- C9 witness: a Gemini stream delivering one id-less function call
finalizes with the generated uuid as the toolCall id, which is non-empty. -/
theorem C9_gemini_final_toolCall_id_witness :
    (geminiChatTrace "u1" [{ text := none, functionCalls := [{ name := some "f", args := some (JsonVal.obj []), id := none }] }]).terminal =
      Terminal.final
        { fullText := "", fullReasoning := "", anthropicReasoning := none,
          toolCall := some { id := "u1", name := "f", rawParams := JsonVal.obj [],
                             doneParams := [], isDone := true } } ∧
    ("u1" : String) ≠ "" :=
  ⟨rfl,
    C9_gemini_final_toolCall_id "u1"
      [{ text := none, functionCalls := [{ name := some "f", args := some (JsonVal.obj []), id := none }] }]
      (by decide)
      { fullText := "", fullReasoning := "", anthropicReasoning := none,
        toolCall := some { id := "u1", name := "f", rawParams := JsonVal.obj [],
                           doneParams := [], isDone := true } }
      { id := "u1", name := "f", rawParams := JsonVal.obj [], doneParams := [], isDone := true }
      rfl rfl⟩

/-- C9 counterexample: the incremental emission produced when the id-less
function call arrives surfaces a toolCall whose id is the empty string — the
uuid is not yet synthesized — refuting the claim that every tool call the
caller sees has a non-empty id. -/
theorem C9_counterexample :
    geminiChatEvents geminiChatState0
        [{ text := none, functionCalls := [{ name := some "f", args := some (JsonVal.obj []), id := none }] }] =
      [{ fullText := "", fullReasoning := "",
         toolCall := some { id := "", name := "f", rawParams := JsonVal.obj [],
                            doneParams := [], isDone := false } }] :=
  rfl

/-- One step of `saveCodeBlocksFromOutput`'s loop either leaves the
accumulator unchanged (skipped, rejected or failed block) or appends one
returned entry together with its written path, which passed the
workspace-root check. -/
theorem saveCodeBlocksStep_cases (root : String) (existsFn writeOk : String → Bool)
    (acc : List SavedFileEntry × List String) (b : CodeBlockMatch) :
    saveCodeBlocksStep root existsFn writeOk acc b = acc ∨
    ∃ e p, jsStartsWith p root = true ∧ e.filePath = p ∧
      saveCodeBlocksStep root existsFn writeOk acc b = (acc.1 ++ [e], acc.2 ++ [p]) := by
  by_cases hskip : (jsTrim b.rawFilePath = "" ∨ b.code = "")
  · left; simp [saveCodeBlocksStep, hskip]
  · by_cases habs : posixIsAbsolute (jsTrim b.rawFilePath) = true
    · by_cases hpref : jsStartsWith (jsTrim b.rawFilePath) root = true
      · by_cases hw : writeOk (jsTrim b.rawFilePath) = true
        · right
          refine ⟨{ filePath := jsTrim b.rawFilePath, language := b.language,
                    action := if existsFn (jsTrim b.rawFilePath) = true then FileAction.updated else FileAction.created },
                  jsTrim b.rawFilePath, hpref, rfl, ?_⟩
          simp [saveCodeBlocksStep, hskip, habs, hpref, hw]
        · left; simp [saveCodeBlocksStep, hskip, habs, hpref, hw]
      · left; simp [saveCodeBlocksStep, hskip, habs, hpref]
    · by_cases hpref : jsStartsWith (pathJoin root (jsTrim b.rawFilePath)) root = true
      · by_cases hw : writeOk (pathJoin root (jsTrim b.rawFilePath)) = true
        · right
          refine ⟨{ filePath := pathJoin root (jsTrim b.rawFilePath), language := b.language,
                    action := if existsFn (pathJoin root (jsTrim b.rawFilePath)) = true then FileAction.updated else FileAction.created },
                  pathJoin root (jsTrim b.rawFilePath), hpref, rfl, ?_⟩
          simp [saveCodeBlocksStep, hskip, habs, hpref, hw]
        · left; simp [saveCodeBlocksStep, hskip, habs, hpref, hw]
      · left; simp [saveCodeBlocksStep, hskip, habs, hpref]

/-- One step of `saveCodeBlocksFromOutput`'s loop preserves the invariant:
the returned entries are exactly the written paths and every written path
passes the workspace-root check. -/
theorem saveCodeBlocksStep_invariant (root : String) (existsFn writeOk : String → Bool)
    (acc : List SavedFileEntry × List String) (b : CodeBlockMatch)
    (h1 : acc.1.map (fun sf => sf.filePath) = acc.2)
    (h2 : ∀ p ∈ acc.2, jsStartsWith p root = true) :
    ((saveCodeBlocksStep root existsFn writeOk acc b).1.map (fun sf => sf.filePath) =
      (saveCodeBlocksStep root existsFn writeOk acc b).2) ∧
    (∀ p ∈ (saveCodeBlocksStep root existsFn writeOk acc b).2, jsStartsWith p root = true) := by
  rcases saveCodeBlocksStep_cases root existsFn writeOk acc b with heq | ⟨e, p, hpref, hep, heq⟩
  · rw [heq]; exact ⟨h1, h2⟩
  · rw [heq]
    constructor
    · simp [h1, hep]
    · intro q hq
      rcases List.mem_append.mp hq with hq | hq
      · exact h2 q hq
      · rw [List.mem_singleton.mp hq]; exact hpref

/-- The loop of `saveCodeBlocksFromOutput` preserves the invariant from any
starting accumulator. -/
theorem saveCodeBlocks_foldl_invariant (root : String) (existsFn writeOk : String → Bool)
    (blocks : List CodeBlockMatch) (acc : List SavedFileEntry × List String)
    (h1 : acc.1.map (fun sf => sf.filePath) = acc.2)
    (h2 : ∀ p ∈ acc.2, jsStartsWith p root = true) :
    ((blocks.foldl (saveCodeBlocksStep root existsFn writeOk) acc).1.map (fun sf => sf.filePath) =
      (blocks.foldl (saveCodeBlocksStep root existsFn writeOk) acc).2) ∧
    (∀ p ∈ (blocks.foldl (saveCodeBlocksStep root existsFn writeOk) acc).2,
      jsStartsWith p root = true) := by
  induction blocks generalizing acc with
  | nil => exact ⟨h1, h2⟩
  | cons b bs ih =>
    rw [List.foldl_cons]
    have hstep := saveCodeBlocksStep_invariant root existsFn writeOk acc b h1 h2
    exact ih (saveCodeBlocksStep root existsFn writeOk acc b) hstep.1 hstep.2

/-- C10: `saveCodeBlocksFromOutput` writes only to resolved paths that start
with the workspace-root string — any block whose resolved path fails that
check, and any block whose write throws (swallowed), contributes neither a
write nor a returned entry — and the returned list names exactly the files
actually written. -/
theorem C10_saveCodeBlocks_safety (workspaceRoot : String) (existsFn writeOk : String → Bool)
    (blocks : List CodeBlockMatch) :
    ((saveCodeBlocksFromOutput workspaceRoot existsFn writeOk blocks).1.map (fun sf => sf.filePath) =
      (saveCodeBlocksFromOutput workspaceRoot existsFn writeOk blocks).2) ∧
    (∀ p ∈ (saveCodeBlocksFromOutput workspaceRoot existsFn writeOk blocks).2,
      jsStartsWith p workspaceRoot = true) := by
  unfold saveCodeBlocksFromOutput
  exact saveCodeBlocks_foldl_invariant workspaceRoot existsFn writeOk blocks ([], [])
    rfl (fun p hp => absurd hp (List.not_mem_nil p))

/-- C10 witness: with one in-workspace block, one traversal block and one
failing write, the returned list equals the written paths and the concrete
written path passes the workspace-root check. -/
theorem C10_saveCodeBlocks_safety_witness :
    ((saveCodeBlocksFromOutput "/ws" (fun _ => false) (fun p => p ≠ "/ws/bad.ts")
        [{ language := "ts", rawFilePath := " src/a.ts ", code := "x" },
         { language := "ts", rawFilePath := "../etc/passwd", code := "x" },
         { language := "ts", rawFilePath := "bad.ts", code := "x" }]).1.map (fun sf => sf.filePath) =
      (saveCodeBlocksFromOutput "/ws" (fun _ => false) (fun p => p ≠ "/ws/bad.ts")
        [{ language := "ts", rawFilePath := " src/a.ts ", code := "x" },
         { language := "ts", rawFilePath := "../etc/passwd", code := "x" },
         { language := "ts", rawFilePath := "bad.ts", code := "x" }]).2) ∧
    jsStartsWith "/ws/src/a.ts" "/ws" = true :=
  ⟨(C10_saveCodeBlocks_safety "/ws" (fun _ => false) (fun p => p ≠ "/ws/bad.ts")
      [{ language := "ts", rawFilePath := " src/a.ts ", code := "x" },
       { language := "ts", rawFilePath := "../etc/passwd", code := "x" },
       { language := "ts", rawFilePath := "bad.ts", code := "x" }]).1,
   (C10_saveCodeBlocks_safety "/ws" (fun _ => false) (fun p => p ≠ "/ws/bad.ts")
      [{ language := "ts", rawFilePath := " src/a.ts ", code := "x" },
       { language := "ts", rawFilePath := "../etc/passwd", code := "x" },
       { language := "ts", rawFilePath := "bad.ts", code := "x" }]).2
      "/ws/src/a.ts" (by decide)⟩

/-- C1 (amended): on a naturally completed stream with empty accumulated
text, reasoning and tool name, the OpenAI-wire and Gemini families classify
the request as the empty-response error (exactly one `onError`, no
`onFinalMessage`); the Anthropic family has no such check and instead always
emits a FinalMessage from its `finalMessage` listener. -/
theorem C1_empty_stream_classification :
    (∀ (hasReasoningField : Bool) (chunks : List OpenAIChunk),
      (openAIChatRunState hasReasoningField openAIChatState0 chunks).fullTextSoFar = "" →
      (openAIChatRunState hasReasoningField openAIChatState0 chunks).fullReasoningSoFar = "" →
      (openAIChatRunState hasReasoningField openAIChatState0 chunks).toolName = "" →
      (openAIChatTrace hasReasoningField chunks).terminal =
        Terminal.error "Void: Response from model was empty.") ∧
    (∀ (uuid : String) (chunks : List GeminiChunk),
      (geminiChatRunState geminiChatState0 chunks).fullTextSoFar = "" →
      (geminiChatRunState geminiChatState0 chunks).fullReasoningSoFar = "" →
      (geminiChatRunState geminiChatState0 chunks).toolName = "" →
      (geminiChatTrace uuid chunks).terminal =
        Terminal.error "Void: Response from model was empty.") ∧
    (∀ (events : List AnthropicStreamEvent) (content : List AnthropicContentBlock),
      ∃ m, (anthropicChatTrace events content).terminal = Terminal.final m) := by
  refine ⟨?_, ?_, ?_⟩
  · intro hasR chunks h1 h2 h3
    show openAIChatFinalize _ = _
    unfold openAIChatFinalize
    rw [if_pos ⟨h1, h2, h3⟩]
  · intro uuid chunks h1 h2 h3
    show geminiChatFinalize _ _ = _
    unfold geminiChatFinalize
    rw [if_pos ⟨h1, h2, h3⟩]
  · intro events content
    exact ⟨_, rfl⟩

/-- C1 witness: the empty chunk sequence triggers the empty-response error
for both checked families. -/
theorem C1_empty_stream_classification_witness :
    (openAIChatTrace false []).terminal = Terminal.error "Void: Response from model was empty." ∧
    (geminiChatTrace "u" []).terminal = Terminal.error "Void: Response from model was empty." :=
  ⟨C1_empty_stream_classification.1 false [] rfl rfl rfl,
   C1_empty_stream_classification.2.1 "u" [] rfl rfl rfl⟩

/-- C1 counterexample: an Anthropic stream that completes with nothing
accumulated still ends in `onFinalMessage` (with empty fields), not in the
empty-response `onError` the claim requires of every family. -/
theorem C1_counterexample :
    anthropicChatRunState anthropicChatState0 [] = anthropicChatState0 ∧
    (anthropicChatTrace [] []).terminal =
      Terminal.final { fullText := "", fullReasoning := "", anthropicReasoning := some [],
                       toolCall := none } :=
  ⟨rfl, rfl⟩

/-- Folding tool-call deltas never changes the accumulated text. -/
theorem foldl_toolDeltaStep_fullText (l : List OpenAIToolCallDelta) (st : OpenAIChatState) :
    (l.foldl openAIToolDeltaStep st).fullTextSoFar = st.fullTextSoFar := by
  induction l generalizing st with
  | nil => rfl
  | cons t ts ih =>
    rw [List.foldl_cons, ih]
    unfold openAIToolDeltaStep
    split <;> rfl

/-- Folding tool-call deltas never changes the accumulated reasoning. -/
theorem foldl_toolDeltaStep_fullReasoning (l : List OpenAIToolCallDelta) (st : OpenAIChatState) :
    (l.foldl openAIToolDeltaStep st).fullReasoningSoFar = st.fullReasoningSoFar := by
  induction l generalizing st with
  | nil => rfl
  | cons t ts ih =>
    rw [List.foldl_cons, ih]
    unfold openAIToolDeltaStep
    split <;> rfl

/-- One OpenAI-wire chunk appends exactly its text delta to the accumulated
text. -/
theorem openAIChunkStep_fullText (hasReasoningField : Bool) (st : OpenAIChatState) (c : OpenAIChunk) :
    (openAIChunkStep hasReasoningField st c).fullTextSoFar = st.fullTextSoFar ++ c.content.getD "" := by
  cases hasReasoningField <;> simp [openAIChunkStep, foldl_toolDeltaStep_fullText]

/-- One OpenAI-wire chunk appends its reasoning delta exactly when the
provider exposes a named reasoning field. -/
theorem openAIChunkStep_fullReasoning (hasReasoningField : Bool) (st : OpenAIChatState) (c : OpenAIChunk) :
    (openAIChunkStep hasReasoningField st c).fullReasoningSoFar =
      (if hasReasoningField then st.fullReasoningSoFar ++ c.reasoningField.getD ""
       else st.fullReasoningSoFar) := by
  cases hasReasoningField <;> simp [openAIChunkStep, foldl_toolDeltaStep_fullReasoning]

/-- The mapped fullText snapshots of the OpenAI-wire emissions are the
cumulative concatenations of the chunk text deltas. -/
theorem openAIChatEvents_fullTexts (hasReasoningField : Bool) (st : OpenAIChatState)
    (chunks : List OpenAIChunk) :
    (openAIChatEvents hasReasoningField st chunks).map (fun e => e.fullText) =
      specCumulativeTexts st.fullTextSoFar (chunks.map (fun c => c.content.getD "")) := by
  induction chunks generalizing st with
  | nil => rfl
  | cons c cs ih =>
    have hst := openAIChunkStep_fullText hasReasoningField st c
    simp only [openAIChatEvents, List.map_cons, specCumulativeTexts]
    rw [← hst]
    exact congrArg₂ List.cons rfl (ih (openAIChunkStep hasReasoningField st c))

/-- The OpenAI-wire decoder emits exactly one `onText` per inbound chunk. -/
theorem openAIChatEvents_length (hasReasoningField : Bool) (st : OpenAIChatState)
    (chunks : List OpenAIChunk) :
    (openAIChatEvents hasReasoningField st chunks).length = chunks.length := by
  induction chunks generalizing st with
  | nil => rfl
  | cons c cs ih => simp [openAIChatEvents, ih]

/-- One OpenAI-wire chunk never shortens the accumulated text or
reasoning. -/
theorem openAIChunkStep_mono (hasReasoningField : Bool) (st : OpenAIChatState) (c : OpenAIChunk) :
    st.fullTextSoFar.length ≤ (openAIChunkStep hasReasoningField st c).fullTextSoFar.length ∧
    st.fullReasoningSoFar.length ≤ (openAIChunkStep hasReasoningField st c).fullReasoningSoFar.length := by
  rw [openAIChunkStep_fullText, openAIChunkStep_fullReasoning]
  constructor
  · simp [String.length_append]
  · cases hasReasoningField <;> simp [String.length_append]

/-- One Anthropic stream event never shortens the accumulated text or
reasoning. -/
theorem anthropicEventStep_mono (st : AnthropicChatState) (e : AnthropicStreamEvent) :
    st.fullText.length ≤ (anthropicEventStep st e).fullText.length ∧
    st.fullReasoning.length ≤ (anthropicEventStep st e).fullReasoning.length := by
  cases e <;>
    (constructor <;>
      (simp only [anthropicEventStep]; (try split) <;> simp [String.length_append] <;> omega))

/-- The OpenAI-wire emissions form a monotone chain (in text and reasoning
lengths) from the emission view of any starting state. -/
theorem openAIChatEvents_chain (hasReasoningField : Bool) (st : OpenAIChatState)
    (chunks : List OpenAIChunk) :
    List.Chain
      (fun a b => a.fullText.length ≤ b.fullText.length ∧
                  a.fullReasoning.length ≤ b.fullReasoning.length)
      (openAIEmit st) (openAIChatEvents hasReasoningField st chunks) := by
  induction chunks generalizing st with
  | nil => exact List.Chain.nil
  | cons c cs ih =>
    exact List.Chain.cons (openAIChunkStep_mono hasReasoningField st c) (ih _)

/-- The Anthropic emissions form a monotone chain from the emission view of
any starting state. -/
theorem anthropicChatEvents_chain (st : AnthropicChatState)
    (events : List AnthropicStreamEvent) :
    List.Chain
      (fun a b => a.fullText.length ≤ b.fullText.length ∧
                  a.fullReasoning.length ≤ b.fullReasoning.length)
      (anthropicRunOnText st) (anthropicChatEvents st events) := by
  induction events generalizing st with
  | nil => exact List.Chain.nil
  | cons e es ih =>
    exact List.Chain.cons (anthropicEventStep_mono st e) (ih _)

/-- C4 (amended): the OpenAI-wire decoder emits exactly one `onText` per
inbound chunk, with `fullText` the concatenation of all text deltas seen so
far; in the Anthropic family a second text block is joined with a blank-line
separator, so only monotonicity survives there: in both families `fullText`
and `fullReasoning` lengths are non-decreasing across the emissions of one
request. -/
theorem C4_cumulative_onText :
    (∀ (hasReasoningField : Bool) (chunks : List OpenAIChunk),
      (openAIChatEvents hasReasoningField openAIChatState0 chunks).length = chunks.length ∧
      (openAIChatEvents hasReasoningField openAIChatState0 chunks).map (fun e => e.fullText) =
        specCumulativeTexts "" (chunks.map (fun c => c.content.getD ""))) ∧
    (∀ (hasReasoningField : Bool) (chunks : List OpenAIChunk),
      List.Chain'
        (fun a b => a.fullText.length ≤ b.fullText.length ∧
                    a.fullReasoning.length ≤ b.fullReasoning.length)
        (openAIChatEvents hasReasoningField openAIChatState0 chunks)) ∧
    (∀ events : List AnthropicStreamEvent,
      List.Chain'
        (fun a b => a.fullText.length ≤ b.fullText.length ∧
                    a.fullReasoning.length ≤ b.fullReasoning.length)
        (anthropicChatEvents anthropicChatState0 events)) := by
  refine ⟨?_, ?_, ?_⟩
  · intro hasR chunks
    exact ⟨openAIChatEvents_length hasR openAIChatState0 chunks,
           openAIChatEvents_fullTexts hasR openAIChatState0 chunks⟩
  · intro hasR chunks
    cases chunks with
    | nil => exact trivial
    | cons c cs =>
      show List.Chain _ _ _
      exact openAIChatEvents_chain hasR _ cs
  · intro events
    cases events with
    | nil => exact trivial
    | cons e es =>
      show List.Chain _ _ _
      exact anthropicChatEvents_chain _ es

/-- C4 counterexample: two Anthropic text-block starts `"a"`, `"b"` emit
fullText snapshots `"a"`, `"a\n\nb"` — the second is not the concatenation
`"ab"` of the fragments seen so far. -/
theorem C4_counterexample :
    (anthropicChatEvents anthropicChatState0
        [AnthropicStreamEvent.contentBlockStartText "a",
         AnthropicStreamEvent.contentBlockStartText "b"]).map (fun e => e.fullText) =
      ["a", "a\n\nb"] ∧
    ("a\n\nb" : String) ≠ "ab" :=
  ⟨rfl, by decide⟩

/-- Every OpenAI-wire emission is the emission view of some accumulator
state. -/
theorem openAIChatEvents_mem (hasReasoningField : Bool) (st : OpenAIChatState)
    (chunks : List OpenAIChunk) :
    ∀ e ∈ openAIChatEvents hasReasoningField st chunks, ∃ st', e = openAIEmit st' := by
  induction chunks generalizing st with
  | nil => intro e he; exact absurd he (List.not_mem_nil e)
  | cons c cs ih =>
    intro e he
    rcases List.mem_cons.mp he with he | he
    · exact ⟨openAIChunkStep hasReasoningField st c, he⟩
    · exact ih _ e he

/-- Every Anthropic emission is the emission view of some accumulator
state. -/
theorem anthropicChatEvents_mem (st : AnthropicChatState) (events : List AnthropicStreamEvent) :
    ∀ e ∈ anthropicChatEvents st events, ∃ st', e = anthropicRunOnText st' := by
  induction events generalizing st with
  | nil => intro e he; exact absurd he (List.not_mem_nil e)
  | cons ev evs ih =>
    intro e he
    rcases List.mem_cons.mp he with he | he
    · exact ⟨anthropicEventStep st ev, he⟩
    · exact ih _ e he

/-- Every Gemini emission is the emission view of some accumulator state. -/
theorem geminiChatEvents_mem (st : GeminiChatState) (chunks : List GeminiChunk) :
    ∀ e ∈ geminiChatEvents st chunks, ∃ st', e = geminiEmit st' := by
  induction chunks generalizing st with
  | nil => intro e he; exact absurd he (List.not_mem_nil e)
  | cons c cs ih =>
    intro e he
    rcases List.mem_cons.mp he with he | he
    · exact ⟨geminiChunkStep st c, he⟩
    · exact ih _ e he

/-- The OpenAI-wire emission view surfaces `toolCall` exactly when the
accumulated tool name is non-empty, and then carries that name. -/
theorem openAIEmit_toolCall (st : OpenAIChatState) :
    ((openAIEmit st).toolCall = none ↔ st.toolName = "") ∧
    (∀ tc, (openAIEmit st).toolCall = some tc → tc.name = st.toolName) := by
  by_cases h : st.toolName = ""
  · constructor
    · simp [openAIEmit, h]
    · intro tc htc; simp [openAIEmit, h] at htc
  · constructor
    · simp [openAIEmit, h]
    · intro tc htc
      simp only [openAIEmit] at htc
      rw [if_neg h] at htc
      rw [← Option.some.inj htc]

/-- The Anthropic emission view surfaces `toolCall` exactly when the
accumulated tool name is non-empty, and then carries that name. -/
theorem anthropicRunOnText_toolCall (st : AnthropicChatState) :
    ((anthropicRunOnText st).toolCall = none ↔ st.fullToolName = "") ∧
    (∀ tc, (anthropicRunOnText st).toolCall = some tc → tc.name = st.fullToolName) := by
  by_cases h : st.fullToolName = ""
  · constructor
    · simp [anthropicRunOnText, h]
    · intro tc htc; simp [anthropicRunOnText, h] at htc
  · constructor
    · simp [anthropicRunOnText, h]
    · intro tc htc
      simp only [anthropicRunOnText] at htc
      rw [if_neg h] at htc
      rw [← Option.some.inj htc]

/-- The Gemini emission view surfaces `toolCall` exactly when the
accumulated tool name is non-empty, and then carries that name. -/
theorem geminiEmit_toolCall (st : GeminiChatState) :
    ((geminiEmit st).toolCall = none ↔ st.toolName = "") ∧
    (∀ tc, (geminiEmit st).toolCall = some tc → tc.name = st.toolName) := by
  by_cases h : st.toolName = ""
  · constructor
    · simp [geminiEmit, h]
    · intro tc htc; simp [geminiEmit, h] at htc
  · constructor
    · simp [geminiEmit, h]
    · intro tc htc
      simp only [geminiEmit] at htc
      rw [if_neg h] at htc
      rw [← Option.some.inj htc]

/-- C5: in every incremental emission of the OpenAI-wire, Anthropic and
Gemini decoders, the `toolCall` field is absent exactly while the
accumulated tool name is the empty string, and as soon as any tool-name text
has accumulated it is a present object carrying that name. -/
theorem C5_toolCall_presence :
    (∀ (hasReasoningField : Bool) (chunks : List OpenAIChunk),
      ∀ e ∈ openAIChatEvents hasReasoningField openAIChatState0 chunks,
      ∃ st, e = openAIEmit st ∧ (e.toolCall = none ↔ st.toolName = "") ∧
        (∀ tc, e.toolCall = some tc → tc.name = st.toolName)) ∧
    (∀ events : List AnthropicStreamEvent,
      ∀ e ∈ anthropicChatEvents anthropicChatState0 events,
      ∃ st, e = anthropicRunOnText st ∧ (e.toolCall = none ↔ st.fullToolName = "") ∧
        (∀ tc, e.toolCall = some tc → tc.name = st.fullToolName)) ∧
    (∀ chunks : List GeminiChunk,
      ∀ e ∈ geminiChatEvents geminiChatState0 chunks,
      ∃ st, e = geminiEmit st ∧ (e.toolCall = none ↔ st.toolName = "") ∧
        (∀ tc, e.toolCall = some tc → tc.name = st.toolName)) := by
  refine ⟨?_, ?_, ?_⟩
  · intro hasR chunks e he
    rcases openAIChatEvents_mem hasR openAIChatState0 chunks e he with ⟨st, hst⟩
    exact ⟨st, hst, hst ▸ (openAIEmit_toolCall st).1, hst ▸ (openAIEmit_toolCall st).2⟩
  · intro events e he
    rcases anthropicChatEvents_mem anthropicChatState0 events e he with ⟨st, hst⟩
    exact ⟨st, hst, hst ▸ (anthropicRunOnText_toolCall st).1, hst ▸ (anthropicRunOnText_toolCall st).2⟩
  · intro chunks e he
    rcases geminiChatEvents_mem geminiChatState0 chunks e he with ⟨st, hst⟩
    exact ⟨st, hst, hst ▸ (geminiEmit_toolCall st).1, hst ▸ (geminiEmit_toolCall st).2⟩

/-- C5 witness: the emission of a chunk that carries only a tool-name delta
is the view of a state with that tool name, and surfaces a present toolCall
named by it. -/
theorem C5_toolCall_presence_witness :
    ∃ st, ({ fullText := "", fullReasoning := "",
             toolCall := some { id := "", name := "f", rawParams := JsonVal.obj [],
                                doneParams := [], isDone := false } } : OnTextEvent) = openAIEmit st ∧
      (({ fullText := "", fullReasoning := "",
          toolCall := some { id := "", name := "f", rawParams := JsonVal.obj [],
                             doneParams := [], isDone := false } } : OnTextEvent).toolCall = none ↔
        st.toolName = "") ∧
      (∀ tc, ({ fullText := "", fullReasoning := "",
                toolCall := some { id := "", name := "f", rawParams := JsonVal.obj [],
                                   doneParams := [], isDone := false } } : OnTextEvent).toolCall = some tc →
        tc.name = st.toolName) :=
  C5_toolCall_presence.1 false
    [{ content := none, tool_calls := [{ index := 0, name := some "f", arguments := none, id := none }],
       reasoningField := none }]
    _ (List.mem_singleton.mpr rfl)

/-- C6 (amended): a 401 `APIError` in the OpenAI-wire and Anthropic catch
handlers yields the single invalid-credential `onError` whose message
contains the provider's display title; the Gemini catch handler classifies
by the `'API key'` message substring rather than by HTTP status, and yields
the same title-bearing message exactly on that substring. -/
theorem C6_invalid_credential (title : String) (e : SdkApiError) (g : GeminiSdkError) (m : String) :
    (e.isApiError = true → e.status = some 401 →
      openAICompatibleCatch title e = Terminal.error (invalidApiKeyMessage title) ∧
      sendAnthropicChatCatch title e = Terminal.error (invalidApiKeyMessage title)) ∧
    strContainsSub (invalidApiKeyMessage title) title = true ∧
    (g.message = some m → strContainsSub m "API key" = true →
      sendGeminiChatCatch title g = Terminal.error (invalidApiKeyMessage title)) := by
  refine ⟨?_, invalidApiKeyMessage_contains_title title, ?_⟩
  · intro hapi hstatus
    constructor
    · unfold openAICompatibleCatch
      rw [if_pos ⟨hapi, hstatus⟩]
    · unfold sendAnthropicChatCatch
      rw [if_pos ⟨hapi, hstatus⟩]
  · intro hmsg hsub
    unfold sendGeminiChatCatch
    rw [hmsg]
    simp only [hsub, if_true]

/-- C6 witness: a concrete 401 API error classifies as invalid credential
for the OpenAI-wire handler, and a concrete `'API key'`-bearing Gemini error
message does the same for the Gemini handler. -/
theorem C6_invalid_credential_witness :
    openAICompatibleCatch "OpenAI" { isApiError := true, status := some 401, asString := "E" } =
      Terminal.error (invalidApiKeyMessage "OpenAI") ∧
    sendGeminiChatCatch "Gemini" { message := some "API key not valid", asString := "E2" } =
      Terminal.error (invalidApiKeyMessage "Gemini") :=
  ⟨(C6_invalid_credential "OpenAI" { isApiError := true, status := some 401, asString := "E" }
      { message := none, asString := "" } "" ).1 rfl rfl |>.1,
   (C6_invalid_credential "Gemini" { isApiError := true, status := some 401, asString := "E" }
      { message := some "API key not valid", asString := "E2" } "API key not valid").2.2 rfl rfl⟩

/-- C6 counterexample: a Gemini failure whose message is `"Unauthorized"` —
as a 401 response may well produce — is reported verbatim because the
handler never inspects the HTTP status, and the resulting message does not
contain the provider title `"Gemini"`. -/
theorem C6_counterexample :
    sendGeminiChatCatch "Gemini" { message := some "Unauthorized", asString := "Error: Unauthorized" } =
      Terminal.error "Error: Unauthorized" ∧
    strContainsSub "Error: Unauthorized" "Gemini" = false :=
  ⟨rfl, rfl⟩

/-- C7 (amended): for every provider whose dispatch-table `sendFIM` entry is
non-null except Ollama's, a model that resolves to `supportsFIM = false`
produces the unsupported-FIM `onError` before any network call, naming the
resolved model alone when the names coincide and both the requested and
resolved models (the message contains both) when they differ; Ollama's
`sendFIM` performs no capability check at all (see the counterexample). -/
theorem C7_fim_gate (p : ProviderId) (impl : FIMImplementation)
    (caps : ModelCapabilitiesResult) (requested defaultEndpoint endpoint : String)
    (hdispatch : sendFIMOf p = some impl) (hnotOllama : impl ≠ FIMImplementation.ollamaFIM)
    (hfim : caps.supportsFIM = false) :
    (caps.modelName = requested →
      fimGateOutcome impl caps requested defaultEndpoint endpoint =
        FIMOutcome.earlyError ("Model " ++ caps.modelName ++ " does not support FIM.")) ∧
    (caps.modelName ≠ requested →
      fimGateOutcome impl caps requested defaultEndpoint endpoint =
        FIMOutcome.earlyError
          ("Model " ++ requested ++ " (" ++ caps.modelName ++ ") does not support FIM.") ∧
      strContainsSub ("Model " ++ requested ++ " (" ++ caps.modelName ++ ") does not support FIM.")
        requested = true ∧
      strContainsSub ("Model " ++ requested ++ " (" ++ caps.modelName ++ ") does not support FIM.")
        caps.modelName = true) := by
  have hcontains1 :
      strContainsSub ("Model " ++ requested ++ " (" ++ caps.modelName ++ ") does not support FIM.")
        requested = true :=
    strContainsSub_of_decomp _ "Model " requested
      (" (" ++ caps.modelName ++ ") does not support FIM.")
      (by simp only [String.append_assoc])
  have hcontains2 :
      strContainsSub ("Model " ++ requested ++ " (" ++ caps.modelName ++ ") does not support FIM.")
        caps.modelName = true :=
    strContainsSub_of_decomp _ ("Model " ++ requested ++ " (") caps.modelName
      ") does not support FIM."
      (by simp only [String.append_assoc])
  cases impl with
  | ollamaFIM => exact absurd rfl hnotOllama
  | openAICompatFIM =>
    constructor
    · intro heq
      simp only [fimGateOutcome, _sendOpenAICompatibleFIM_gate, hfim, if_pos, heq, if_true]
    · intro hneq
      refine ⟨?_, hcontains1, hcontains2⟩
      simp only [fimGateOutcome, _sendOpenAICompatibleFIM_gate, hfim, if_pos]
      rw [if_neg hneq]
  | mistralFIM =>
    constructor
    · intro heq
      simp only [fimGateOutcome, sendMistralFIM_gate, hfim, if_pos, heq, if_true]
    · intro hneq
      refine ⟨?_, hcontains1, hcontains2⟩
      simp only [fimGateOutcome, sendMistralFIM_gate, hfim, if_pos]
      rw [if_neg hneq]

/-- C7 witness: the Mistral gate with an unsupported, differently resolved
model errors before any network call with a message naming both models. -/
theorem C7_fim_gate_witness :
    fimGateOutcome FIMImplementation.mistralFIM { modelName := "m2", supportsFIM := false }
        "m1" "d" "e" =
      FIMOutcome.earlyError "Model m1 (m2) does not support FIM." ∧
    strContainsSub "Model m1 (m2) does not support FIM." "m1" = true ∧
    strContainsSub "Model m1 (m2) does not support FIM." "m2" = true :=
  (C7_fim_gate ProviderId.mistral FIMImplementation.mistralFIM
    { modelName := "m2", supportsFIM := false } "m1" "d" "e" rfl (by decide) rfl).2 (by decide)

/-- C7 counterexample: Ollama's dispatch-table `sendFIM` entry is non-null,
yet with a model that does not support FIM the request proceeds straight to
the network — no `onError` is invoked beforehand. -/
theorem C7_counterexample :
    sendFIMOf ProviderId.ollama = some FIMImplementation.ollamaFIM ∧
    fimGateOutcome FIMImplementation.ollamaFIM { modelName := "m", supportsFIM := false } "m"
      "http://localhost:11434" "http://localhost:11434" = FIMOutcome.proceeds :=
  ⟨rfl, rfl⟩
